import Mathlib

/-!
Shallow embedding of the n8n collaboration backend coordination core
(LockManager, UserManager, RequestManager from src/routes/api.js and the
coordinator handlers from the server file), with theorems settling the
claims about its specification.

JavaScript `Map` objects are embedded as association lists in insertion
order; `Date` values are milliseconds since the epoch, embedded as `Nat`
and threaded explicitly as a `now` parameter wherever the source calls
`new Date()` / `Date.now()`.  Thrown-and-caught JS errors are embedded
with `Except String`.
-/

namespace Collab

/-- JS `Map.get`: first entry with the given key, if any. -/
def mapGet {V : Type} (k : String) : List (String × V) → Option V
  | [] => none
  | e :: rest => if e.1 = k then some e.2 else mapGet k rest

/-- JS `Map.set`: replace the entry in place (preserving position) when the
key is present, otherwise append at the end. -/
def mapSet {V : Type} (k : String) (v : V) : List (String × V) → List (String × V)
  | [] => [(k, v)]
  | e :: rest => if e.1 = k then (k, v) :: rest else e :: mapSet k v rest

/-- JS `Map.delete`: remove the entry with the given key. -/
def mapDelete {V : Type} (k : String) : List (String × V) → List (String × V)
  | [] => []
  | e :: rest => if e.1 = k then mapDelete k rest else e :: mapDelete k rest

/-- The keys of a table, in iteration order. -/
def keys {V : Type} (l : List (String × V)) : List String := l.map Prod.fst

/-- A table is well formed when no key occurs twice (JS `Map` guarantees
this by construction). -/
abbrev KeysNodup {V : Type} (l : List (String × V)) : Prop := (keys l).Nodup

section LockManager

/-- One entry of `LockManager.locks` (the object stored by `requestLock`). -/
structure Lock where
  workflowId : String
  userId : String
  acquiredAt : Nat
  expiresAt : Nat
  isLocked : Bool
deriving DecidableEq, Repr

/-- `LockManager.locks`: Map of workflowId -> lock information. -/
abbrev LockTable := List (String × Lock)

/-- `this.lockTimeout = 5 * 60 * 1000`. -/
def lockTimeout : Nat := 5 * 60 * 1000

/-- `isLockExpired(lock)`: `new Date() > lock.expiresAt`. -/
def isLockExpired (lock : Lock) (now : Nat) : Bool := now > lock.expiresAt

/-- Symbolic error kinds returned by the lock manager. -/
inductive LockError
  | WORKFLOW_LOCKED
  | NO_LOCK
  | UNAUTHORIZED
deriving DecidableEq, Repr

/-- The `lockInfo` object carried by `requestLock` results (workflowId,
userId, acquiredAt, expiresAt). -/
structure LockView where
  workflowId : String
  userId : String
  acquiredAt : Nat
  expiresAt : Nat
deriving DecidableEq, Repr

/-- Result object of `requestLock`. -/
structure LockResult where
  success : Bool
  error : Option LockError
  message : String
  lockInfo : Option LockView
deriving DecidableEq, Repr

/-- Result object of `releaseLock`. -/
structure ReleaseResult where
  success : Bool
  error : Option LockError
  message : String
  workflowId : Option String
deriving DecidableEq, Repr

/-- The acquire branch shared by the no-lock / expired / force paths of
`requestLock`: store a fresh lock and return success. -/
def acquireLock (st : LockTable) (workflowId userId : String) (force : Bool)
    (now : Nat) : LockResult × LockTable :=
  let lockInfo : Lock :=
    { workflowId := workflowId, userId := userId, acquiredAt := now,
      expiresAt := now + lockTimeout, isLocked := true }
  ({ success := true, error := none,
     message := if force then "Lock forcibly acquired" else "Lock acquired successfully",
     lockInfo := some ⟨workflowId, userId, now, now + lockTimeout⟩ },
   mapSet workflowId lockInfo st)

/-- `LockManager.requestLock(workflowId, userId, force)`. -/
def requestLock (st : LockTable) (workflowId userId : String) (force : Bool)
    (now : Nat) : LockResult × LockTable :=
  match mapGet workflowId st with
  | some currentLock =>
    if isLockExpired currentLock now then
      acquireLock st workflowId userId force now
    else if currentLock.userId = userId then
      -- user already owns the lock: refresh the timeout in place
      let refreshed := { currentLock with acquiredAt := now, expiresAt := now + lockTimeout }
      ({ success := true, error := none, message := "Lock refreshed",
         lockInfo := some ⟨workflowId, userId, now, now + lockTimeout⟩ },
       mapSet workflowId refreshed st)
    else if force then
      acquireLock st workflowId userId force now
    else
      ({ success := false, error := some LockError.WORKFLOW_LOCKED,
         message := "Workflow is currently being edited by another user",
         lockInfo := some ⟨workflowId, currentLock.userId, currentLock.acquiredAt,
                           currentLock.expiresAt⟩ }, st)
  | none => acquireLock st workflowId userId force now

/-- `LockManager.releaseLock(workflowId, userId)`.  Note: the source checks
presence and ownership only; it never consults `isLockExpired`. -/
def releaseLock (st : LockTable) (workflowId userId : String) :
    ReleaseResult × LockTable :=
  match mapGet workflowId st with
  | none =>
    ({ success := false, error := some LockError.NO_LOCK,
       message := "No lock exists for this workflow", workflowId := none }, st)
  | some currentLock =>
    if currentLock.userId ≠ userId then
      ({ success := false, error := some LockError.UNAUTHORIZED,
         message := "You do not own this lock", workflowId := none }, st)
    else
      ({ success := true, error := none, message := "Lock released successfully",
         workflowId := some workflowId }, mapDelete workflowId st)

/-- `LockManager.getWorkflowLock(workflowId)`: lazily purges an expired
entry, otherwise returns a copy of the lock. -/
def getWorkflowLock (st : LockTable) (workflowId : String) (now : Nat) :
    Option Lock × LockTable :=
  match mapGet workflowId st with
  | none => (none, st)
  | some lock =>
    if isLockExpired lock now then (none, mapDelete workflowId st)
    else (some lock, st)

/-- `LockManager.getAllLocks()`: iterate, collecting live locks and deleting
expired ones. -/
def getAllLocks (st : LockTable) (now : Nat) : List Lock × LockTable :=
  match st with
  | [] => ([], [])
  | e :: rest =>
    let tail := getAllLocks rest now
    if isLockExpired e.2 now then tail
    else (e.2 :: tail.1, e :: tail.2)

/-- `LockManager.getUserLocks(userId)`: collect the user's live locks,
deleting every expired entry encountered. -/
def getUserLocks (st : LockTable) (userId : String) (now : Nat) :
    List Lock × LockTable :=
  match st with
  | [] => ([], [])
  | e :: rest =>
    let tail := getUserLocks rest userId now
    if e.2.userId = userId ∧ isLockExpired e.2 now = false then
      (e.2 :: tail.1, e :: tail.2)
    else if isLockExpired e.2 now then tail
    else (tail.1, e :: tail.2)

/-- `LockManager.cleanupExpiredLocks()`: sweep, removing and reporting every
expired lock. -/
def cleanupExpiredLocks (st : LockTable) (now : Nat) :
    List (String × String) × LockTable :=
  match st with
  | [] => ([], [])
  | e :: rest =>
    let tail := cleanupExpiredLocks rest now
    if isLockExpired e.2 now then ((e.1, e.2.userId) :: tail.1, tail.2)
    else (tail.1, e :: tail.2)

/-- `LockManager.releaseUserLocks(userId)`: unconditionally remove every
lock owned by the user, regardless of expiry. -/
def releaseUserLocks (st : LockTable) (userId : String) :
    List (String × String) × LockTable :=
  match st with
  | [] => ([], [])
  | e :: rest =>
    let tail := releaseUserLocks rest userId
    if e.2.userId = userId then ((e.1, userId) :: tail.1, tail.2)
    else (tail.1, e :: tail.2)

end LockManager

section UserManager

/-- One entry of `UserManager.users` (the object stored by `registerUser`). -/
structure UserSession where
  userId : String
  socketId : String
  userName : String
  email : Option String
  workflowId : Option String
  connectedAt : Nat
  lastActivity : Nat
  isActive : Bool
deriving DecidableEq, Repr

/-- `UserManager.users`: Map of userId -> user information. -/
abbrev UserTable := List (String × UserSession)

/-- `this.inactivityTimeout = 10 * 60 * 1000`. -/
def inactivityTimeout : Nat := 10 * 60 * 1000

/-- `isUserInactive(user)`: `(now - user.lastActivity) > this.inactivityTimeout`. -/
def isUserInactive (user : UserSession) (now : Nat) : Bool :=
  (now : Int) - user.lastActivity > (inactivityTimeout : Int)

/-- `UserManager.getUser(userId)`: copy of the session, or null. -/
def getUser (st : UserTable) (userId : String) : Option UserSession :=
  mapGet userId st

/-- `UserManager.getAllUsers()`: every session that is not inactive. -/
def getAllUsers (st : UserTable) (now : Nat) : List UserSession :=
  (st.filter (fun e => ! isUserInactive e.2 now)).map Prod.snd

/-- `UserManager.removeUser(userId)`: `this.users.delete(userId)`. -/
def removeUser (st : UserTable) (userId : String) : Bool × UserTable :=
  ((mapGet userId st).isSome, mapDelete userId st)

end UserManager

section RequestManager

/-- The status field of an edit request. -/
inductive RStatus
  | pending
  | approved
  | denied
  | expired
  | cancelled
deriving DecidableEq, Repr

/-- One entry of `RequestManager.requests` (the object built by
`createRequest`). -/
structure EditRequest where
  id : String
  workflowId : String
  requesterId : String
  targetUserId : String
  message : Option String
  status : RStatus
  timestamp : Nat
  expiresAt : Nat
  respondedAt : Option Nat
  response : Option Bool
  responseMessage : Option String
deriving DecidableEq, Repr

/-- `RequestManager.requests`: Map of requestId -> request information. -/
abbrev Ledger := List (String × EditRequest)

/-- `this.requestTimeout = 5 * 60 * 1000`. -/
def requestTimeout : Nat := 5 * 60 * 1000

/-- `isRequestExpired(request)`: `new Date() > request.expiresAt`. -/
def isRequestExpired (r : EditRequest) (now : Nat) : Bool := now > r.expiresAt

/-- `RequestManager.createRequest(workflowId, requesterId, targetUserId,
message)`.  The fresh id produced by `uuidv4()` is passed in as `newId`. -/
def createRequest (led : Ledger) (newId workflowId requesterId targetUserId : String)
    (message : Option String) (now : Nat) : EditRequest × Ledger :=
  let request : EditRequest :=
    { id := newId, workflowId := workflowId, requesterId := requesterId,
      targetUserId := targetUserId, message := message, status := RStatus.pending,
      timestamp := now, expiresAt := now + requestTimeout, respondedAt := none,
      response := none, responseMessage := none }
  (request, mapSet newId request led)

/-- `RequestManager.respondToRequest(requestId, approved, message)`; the three
`throw` sites become `Except.error` and the expired case mutates the ledger
before failing, exactly as the source does. -/
def respondToRequest (led : Ledger) (requestId : String) (approved : Bool)
    (message : Option String) (now : Nat) : Except String EditRequest × Ledger :=
  match mapGet requestId led with
  | none => (Except.error "Request not found", led)
  | some request =>
    if request.status ≠ RStatus.pending then
      (Except.error "Request has already been responded to", led)
    else if isRequestExpired request now then
      (Except.error "Request has expired",
       mapSet requestId { request with status := RStatus.expired } led)
    else
      let updated : EditRequest :=
        { request with
          status := if approved then RStatus.approved else RStatus.denied,
          response := some approved, responseMessage := message,
          respondedAt := some now }
      (Except.ok updated, mapSet requestId updated led)

/-- The `try` body of `RequestManager.cancelRequest(requestId, userId)`:
returns false for an absent request, throws for a non-requester caller or a
non-pending status, otherwise cancels. -/
def cancelRequestTry (led : Ledger) (requestId userId : String) (now : Nat) :
    Except String Bool × Ledger :=
  match mapGet requestId led with
  | none => (Except.ok false, led)
  | some request =>
    if request.requesterId ≠ userId then
      (Except.error "Only the requester can cancel the request", led)
    else if request.status ≠ RStatus.pending then
      (Except.error "Can only cancel pending requests", led)
    else
      let updated : EditRequest :=
        { request with status := RStatus.cancelled, respondedAt := some now }
      (Except.ok true, mapSet requestId updated led)

/-- `RequestManager.cancelRequest`: the surrounding `catch` turns any thrown
error into a plain `false` return, so no exception crosses the boundary. -/
def cancelRequest (led : Ledger) (requestId userId : String) (now : Nat) :
    Bool × Ledger :=
  match cancelRequestTry led requestId userId now with
  | (Except.ok b, led2) => (b, led2)
  | (Except.error _, led2) => (false, led2)

/-- `RequestManager.cleanupExpiredRequests()`: flip every expired pending
request to `expired`, returning the affected ids. -/
def cleanupExpiredRequests (led : Ledger) (now : Nat) : List String × Ledger :=
  match led with
  | [] => ([], [])
  | e :: rest =>
    let tail := cleanupExpiredRequests rest now
    if isRequestExpired e.2 now ∧ e.2.status = RStatus.pending then
      (e.1 :: tail.1, (e.1, { e.2 with status := RStatus.expired }) :: tail.2)
    else (tail.1, e :: tail.2)

/-- `RequestManager.cleanupOldRequests(maxAge)`: delete every request whose
`timestamp` is before `now - maxAge` and whose status is not pending,
returning the number removed.  The cutoff subtraction is over the integers,
as for JS dates. -/
def cleanupOldRequests (led : Ledger) (maxAge now : Nat) : Nat × Ledger :=
  match led with
  | [] => (0, [])
  | e :: rest =>
    let tail := cleanupOldRequests rest maxAge now
    if (e.2.timestamp : Int) < (now : Int) - (maxAge : Int) ∧
        e.2.status ≠ RStatus.pending then
      (tail.1 + 1, tail.2)
    else (tail.1, e :: tail.2)

/-- The per-status counters of `RequestManager.getStats()` (the constant
`requestTimeout` and `timestamp` echo fields are omitted). -/
structure RStats where
  total : Nat
  pending : Nat
  approved : Nat
  denied : Nat
  expired : Nat
  cancelled : Nat
deriving DecidableEq, Repr

/-- `stats[request.status]++`. -/
def bumpStat (s : RStats) : RStatus → RStats
  | RStatus.pending => { s with pending := s.pending + 1 }
  | RStatus.approved => { s with approved := s.approved + 1 }
  | RStatus.denied => { s with denied := s.denied + 1 }
  | RStatus.expired => { s with expired := s.expired + 1 }
  | RStatus.cancelled => { s with cancelled := s.cancelled + 1 }

/-- The loop of `RequestManager.getStats()`: walk the table, flipping each
expired pending request to `expired` in place, then counting it. -/
def getStatsAux (led : Ledger) (now : Nat) (s : RStats) : RStats × Ledger :=
  match led with
  | [] => (s, [])
  | e :: rest =>
    let r2 :=
      if e.2.status = RStatus.pending ∧ isRequestExpired e.2 now then
        { e.2 with status := RStatus.expired }
      else e.2
    let s2 := bumpStat { s with total := s.total + 1 } r2.status
    let tail := getStatsAux rest now s2
    (tail.1, (e.1, r2) :: tail.2)

/-- `RequestManager.getStats()`. -/
def getStats (led : Ledger) (now : Nat) : RStats × Ledger :=
  getStatsAux led now ⟨0, 0, 0, 0, 0, 0⟩

end RequestManager

section Coordinator

/-- The combined server state: the three manager tables. -/
structure ServerState where
  locks : LockTable
  users : UserTable
  requests : Ledger
deriving DecidableEq, Repr

/-- `PUT /api/requests/:requestId/respond` (src/routes/api.js): validation,
ledger transition, then — on approval — an unconditional attempt to release
the responding user's lock on the request's workflow.  Returns the HTTP
status code together with the new state; socket emissions are external
effects and are not modelled. -/
def respondRoute (st : ServerState) (requestId : String) (approved : Bool)
    (userId : String) (message : Option String) (now : Nat) :
    Nat × ServerState :=
  if userId = "" then (400, st)
  else
    match mapGet requestId st.requests with
    | none => (404, st)
    | some request =>
      if request.targetUserId ≠ userId then (403, st)
      else
        match respondToRequest st.requests requestId approved message now with
        | (Except.error _, led2) => (500, { st with requests := led2 })
        | (Except.ok _, led2) =>
          if approved then
            let rel := releaseLock st.locks request.workflowId userId
            (200, { st with requests := led2, locks := rel.2 })
          else (200, { st with requests := led2 })

/-- The `respond_edit_request` socket handler (server file): after the ledger
transition, the requester notification — and, nested inside the same
`if (requesterUser?.socketId)` block, the approval-triggered lock release —
only run when the requester has a connected session. -/
def respondEditRequestSocket (st : ServerState) (socketUserId : Option String)
    (requestId : String) (approved : Bool) (message : Option String)
    (now : Nat) : ServerState :=
  match mapGet requestId st.requests, socketUserId with
  | none, _ => st
  | some _, none => st
  | some request, some userId =>
    if request.targetUserId ≠ userId then st
    else
      match respondToRequest st.requests requestId approved message now with
      | (Except.error _, led2) => { st with requests := led2 }
      | (Except.ok _, led2) =>
        let requesterConnected : Bool :=
          match getUser st.users request.requesterId with
          | some u => u.socketId != ""
          | none => false
        if requesterConnected ∧ approved then
          let rel := releaseLock st.locks request.workflowId userId
          { st with requests := led2, locks := rel.2 }
        else { st with requests := led2 }

/-- The `disconnect` socket handler (server file): remove the session, then
release only the lock on the socket's own `workflowId` — and only when it is
live and owned by the disconnecting user.  `releaseUserLocks` is never
called. -/
def disconnectHandler (st : ServerState) (socketUserId socketWorkflowId : Option String)
    (now : Nat) : ServerState :=
  match socketUserId with
  | none => st
  | some userId =>
    let users2 := (removeUser st.users userId).2
    match socketWorkflowId with
    | none => { st with users := users2 }
    | some workflowId =>
      let got := getWorkflowLock st.locks workflowId now
      match got.1 with
      | some lockState =>
        if lockState.isLocked ∧ lockState.userId = userId then
          let rel := releaseLock got.2 workflowId userId
          { st with users := users2, locks := rel.2 }
        else { st with users := users2, locks := got.2 }
      | none => { st with users := users2, locks := got.2 }

/-- The RequestManager operations that return an updated ledger (the pure
reads `getRequest`, `getRequestsForUser`, `getRequestsByUser` and
`getWorkflowRequests` return copies and no ledger, as their embeddings
show). -/
inductive ROp
  | create (newId workflowId requesterId targetUserId : String) (message : Option String)
  | respond (requestId : String) (approved : Bool) (message : Option String)
  | cancel (requestId userId : String)
  | cleanupExpired
  | cleanupOld (maxAge : Nat)
  | stats
deriving DecidableEq, Repr

/-- The ledger after running one RequestManager operation. -/
def applyROp (led : Ledger) (now : Nat) : ROp → Ledger
  | ROp.create newId wf rq tg m => (createRequest led newId wf rq tg m now).2
  | ROp.respond i a m => (respondToRequest led i a m now).2
  | ROp.cancel i u => (cancelRequest led i u now).2
  | ROp.cleanupExpired => (cleanupExpiredRequests led now).2
  | ROp.cleanupOld maxAge => (cleanupOldRequests led maxAge now).2
  | ROp.stats => (getStats led now).2

/-- Side condition matching `uuidv4()`: a `create` operation only ever runs
with an id not already present in the ledger. -/
def opFresh (led : Ledger) : ROp → Prop
  | ROp.create newId _ _ _ _ => mapGet newId led = none
  | _ => True

end Coordinator

/-! ### Derived definitions used to state the properties -/

/-- The in-place update applied to each ledger entry by the expiry sweeps:
an expired pending request is flipped to `expired`, anything else is left
alone. -/
def expireStep (now : Nat) (e : String × EditRequest) : String × EditRequest :=
  if e.2.status = RStatus.pending ∧ isRequestExpired e.2 now then
    (e.1, { e.2 with status := RStatus.expired })
  else e

/-- Number of ledger entries currently carrying a given status. -/
def countStatus (led : Ledger) (s : RStatus) : Nat :=
  (led.filter (fun e => decide (e.2.status = s))).length

/-- Sample lock held by alice on workflow wf-1, expiring at time 300000. -/
def lockA : Lock :=
  { workflowId := "wf-1", userId := "alice", acquiredAt := 0,
    expiresAt := 300000, isLocked := true }

/-- Sample lock held by alice on workflow wf-1, already expired at time 100. -/
def lockStale : Lock :=
  { workflowId := "wf-1", userId := "alice", acquiredAt := 0,
    expiresAt := 10, isLocked := true }

/-- Sample pending request by bob targeting alice on wf-1, expiring at 300000. -/
def reqPending : EditRequest :=
  { id := "r1", workflowId := "wf-1", requesterId := "bob",
    targetUserId := "alice", message := none, status := RStatus.pending,
    timestamp := 0, expiresAt := 300000, respondedAt := none,
    response := none, responseMessage := none }

/-- Sample request already denied, created at time 0. -/
def reqDenied : EditRequest :=
  { id := "r2", workflowId := "wf-1", requesterId := "bob",
    targetUserId := "alice", message := none, status := RStatus.denied,
    timestamp := 0, expiresAt := 300000, respondedAt := some 5,
    response := some false, responseMessage := none }

/-- Sample session for alice, connected on wf-1. -/
def sessionAlice : UserSession :=
  { userId := "alice", socketId := "s1", userName := "Alice", email := none,
    workflowId := some "wf-1", connectedAt := 0, lastActivity := 0,
    isActive := true }

/-- Server state in which alice holds the live lock on wf-1 and is
connected, bob has a pending request targeting alice but no session. -/
def stRespond : ServerState :=
  { locks := [("wf-1", lockA)], users := [("alice", sessionAlice)],
    requests := [("r1", reqPending)] }

/-- Sample live lock held by carol on wf-2. -/
def lockC2 : Lock :=
  { workflowId := "wf-2", userId := "carol", acquiredAt := 0,
    expiresAt := 300000, isLocked := true }

/-- Sample live lock held by carol on wf-3. -/
def lockC3 : Lock :=
  { workflowId := "wf-3", userId := "carol", acquiredAt := 0,
    expiresAt := 300000, isLocked := true }

/-- Sample session for carol, connected on wf-2. -/
def sessionCarol : UserSession :=
  { userId := "carol", socketId := "s2", userName := "Carol", email := none,
    workflowId := some "wf-2", connectedAt := 0, lastActivity := 0,
    isActive := true }

/-- Server state in which carol holds live locks on wf-2 and wf-3 and is
connected with socket workflow wf-2. -/
def stDisconnect : ServerState :=
  { locks := [("wf-2", lockC2), ("wf-3", lockC3)],
    users := [("carol", sessionCarol)], requests := [] }

/-! ### Lemmas about the association-map primitives -/

section MapLemmas

variable {V : Type}

theorem keys_cons (e : String × V) (rest : List (String × V)) :
    keys (e :: rest) = e.1 :: keys rest := rfl

theorem keysNodup_cons (e : String × V) (rest : List (String × V)) :
    KeysNodup (e :: rest) ↔ e.1 ∉ keys rest ∧ KeysNodup rest := by
  simp only [KeysNodup, keys_cons, List.nodup_cons]

theorem mapGet_mapSet_self (k : String) (v : V) (l : List (String × V)) :
    mapGet k (mapSet k v l) = some v := by
  induction l with
  | nil => simp [mapGet, mapSet]
  | cons e rest ih =>
    by_cases h : e.1 = k
    · simp [mapSet, h, mapGet]
    · simp [mapSet, h, mapGet, ih]

theorem mapGet_mapSet_ne (i k : String) (v : V) (l : List (String × V))
    (h : i ≠ k) : mapGet i (mapSet k v l) = mapGet i l := by
  induction l with
  | nil => simp [mapGet, mapSet, Ne.symm h]
  | cons e rest ih =>
    by_cases he : e.1 = k
    · have h2 : e.1 ≠ i := by rw [he]; exact Ne.symm h
      simp [mapSet, he, mapGet, Ne.symm h, h2]
    · simp [mapSet, he, mapGet, ih]

theorem mapGet_mapDelete_self (k : String) (l : List (String × V)) :
    mapGet k (mapDelete k l) = none := by
  induction l with
  | nil => simp [mapGet, mapDelete]
  | cons e rest ih =>
    by_cases h : e.1 = k
    · simp [mapDelete, h, ih]
    · simp [mapDelete, h, mapGet, ih]

theorem mapGet_mapDelete_ne (i k : String) (l : List (String × V))
    (h : i ≠ k) : mapGet i (mapDelete k l) = mapGet i l := by
  induction l with
  | nil => simp [mapDelete]
  | cons e rest ih =>
    by_cases he : e.1 = k
    · have h2 : e.1 ≠ i := by rw [he]; exact Ne.symm h
      simp [mapDelete, he, mapGet, h2, Ne.symm h, ih]
    · simp [mapDelete, he, mapGet, ih]

theorem mapGet_eq_none_of_not_mem_keys (k : String) (l : List (String × V))
    (h : k ∉ keys l) : mapGet k l = none := by
  induction l with
  | nil => simp [mapGet]
  | cons e rest ih =>
    simp only [keys_cons, List.mem_cons, not_or] at h
    have h1 : e.1 ≠ k := fun hh => h.1 hh.symm
    simp [mapGet, h1, ih h.2]

theorem mem_keys_of_mapGet_isSome (k : String) (l : List (String × V))
    (h : (mapGet k l).isSome) : k ∈ keys l := by
  by_contra hk
  rw [mapGet_eq_none_of_not_mem_keys k l hk] at h
  simp at h

theorem keys_filter_subset (p : String × V → Bool) (l : List (String × V)) :
    keys (l.filter p) ⊆ keys l :=
  (List.Sublist.map Prod.fst (List.filter_sublist l)).subset

theorem mapGet_filter (p : String × V → Bool) (k : String) (v : V) :
    ∀ l : List (String × V), KeysNodup l → mapGet k l = some v →
      mapGet k (l.filter p) = if p (k, v) then some v else none := by
  intro l
  induction l with
  | nil => intro _ h; simp [mapGet] at h
  | cons e rest ih =>
    intro hnd hget
    have hpair := (keysNodup_cons e rest).mp hnd
    by_cases he : e.1 = k
    · have hv : e.2 = v := by
        have := hget
        simp only [mapGet, he, if_pos rfl] at this
        exact Option.some.inj this
      have hep : e = (k, v) := by
        cases e with
        | mk a b =>
          simp only at he hv
          rw [he, hv]
      have hko : k ∉ keys rest := he ▸ hpair.1
      have hkr : mapGet k (rest.filter p) = none :=
        mapGet_eq_none_of_not_mem_keys k _
          (fun hmem => hko (keys_filter_subset p rest hmem))
      by_cases hp : p (k, v) = true
      · rw [hep]
        simp [List.filter_cons, hp, mapGet]
      · have hp' : p (k, v) = false := by
          cases hkv : p (k, v)
          · rfl
          · exact absurd hkv hp
        rw [hep]
        simp [List.filter_cons, hp', hkr]
    · have hget' : mapGet k rest = some v := by
        have := hget
        simp only [mapGet, if_neg he] at this
        exact this
      have hrec := ih hpair.2 hget'
      cases hp : p e
      · simp [List.filter_cons, hp, hrec]
      · simp [List.filter_cons, hp, mapGet, he, hrec]

theorem keys_mapSet (k : String) (v : V) (l : List (String × V)) :
    keys (mapSet k v l) = if k ∈ keys l then keys l else keys l ++ [k] := by
  induction l with
  | nil => simp [mapSet, keys]
  | cons e rest ih =>
    by_cases he : e.1 = k
    · subst he
      have hmem : e.1 ∈ keys (e :: rest) := by simp [keys_cons]
      simp [mapSet, keys_cons, hmem]
    · have hiff : k ∈ keys (e :: rest) ↔ k ∈ keys rest := by
        simp only [keys_cons, List.mem_cons]
        constructor
        · rintro (h1 | h1)
          · exact absurd h1.symm he
          · exact h1
        · exact Or.inr
      by_cases hk : k ∈ keys rest
      · rw [if_pos (hiff.mpr hk)]
        simp only [mapSet, if_neg he, keys_cons, ih, if_pos hk]
      · rw [if_neg (fun hm => hk (hiff.mp hm))]
        simp only [mapSet, if_neg he, keys_cons, ih, if_neg hk, List.cons_append]

theorem keysNodup_mapSet (k : String) (v : V) (l : List (String × V))
    (h : KeysNodup l) : KeysNodup (mapSet k v l) := by
  rw [KeysNodup, keys_mapSet]
  by_cases hk : k ∈ keys l
  · simpa [hk] using h
  · rw [if_neg hk]
    rw [List.nodup_append]
    exact ⟨h, List.nodup_singleton k, by
      intro a ha hb
      have : a = k := by simpa using hb
      exact hk (this ▸ ha)⟩

end MapLemmas

/-! ### Lemmas about the manager operations -/

section OpLemmas

/-- `getAllLocks` keeps exactly the live entries in the table and returns
their lock objects. -/
theorem getAllLocks_eq (st : LockTable) (now : Nat) :
    getAllLocks st now =
      ((st.filter (fun e => ! isLockExpired e.2 now)).map Prod.snd,
       st.filter (fun e => ! isLockExpired e.2 now)) := by
  induction st with
  | nil => simp [getAllLocks]
  | cons e rest ih =>
    cases hx : isLockExpired e.2 now
    · simp [getAllLocks, hx, ih, List.filter_cons]
    · simp [getAllLocks, hx, ih, List.filter_cons]

/-- The table left behind by `getUserLocks` keeps exactly the live entries;
the returned list holds the user's live locks. -/
theorem getUserLocks_eq (st : LockTable) (userId : String) (now : Nat) :
    getUserLocks st userId now =
      ((st.filter (fun e => e.2.userId == userId && ! isLockExpired e.2 now)).map Prod.snd,
       st.filter (fun e => ! isLockExpired e.2 now)) := by
  induction st with
  | nil => simp [getUserLocks]
  | cons e rest ih =>
    cases hx : isLockExpired e.2 now
    · by_cases hu : e.2.userId = userId
      · simp [getUserLocks, hx, hu, ih, List.filter_cons]
      · simp [getUserLocks, hx, hu, ih, List.filter_cons]
    · have hne : ¬ (e.2.userId = userId ∧ isLockExpired e.2 now = false) := by
        rintro ⟨_, h2⟩; rw [hx] at h2; cases h2
      simp [getUserLocks, hx, hne, ih, List.filter_cons]

/-- `requestLock` only ever writes through `Map.set`, so it keeps at most
one entry per workflowId. -/
theorem requestLock_keysNodup (st : LockTable) (wf u : String) (f : Bool)
    (now : Nat) (h : KeysNodup st) : KeysNodup (requestLock st wf u f now).2 := by
  unfold requestLock acquireLock
  cases mapGet wf st with
  | none => exact keysNodup_mapSet wf _ st h
  | some currentLock =>
    by_cases h1 : isLockExpired currentLock now
    · simp only [h1, if_pos]
      exact keysNodup_mapSet wf _ st h
    · by_cases h2 : currentLock.userId = u
      · simp only [h1, h2, if_pos, if_neg]
        exact keysNodup_mapSet wf _ st h
      · by_cases h3 : f
        · simp only [h1, h2, h3, if_pos, if_neg]
          exact keysNodup_mapSet wf _ st h
        · simp only [h1, h2, h3, if_neg]
          exact h

theorem expireStep_fst (now : Nat) (e : String × EditRequest) :
    (expireStep now e).1 = e.1 := by
  unfold expireStep
  split <;> rfl

/-- `cleanupExpiredRequests` rewrites the ledger exactly by `expireStep`. -/
theorem cleanupExpiredRequests_snd (led : Ledger) (now : Nat) :
    (cleanupExpiredRequests led now).2 = led.map (expireStep now) := by
  induction led with
  | nil => simp [cleanupExpiredRequests]
  | cons e rest ih =>
    by_cases hc : isRequestExpired e.2 now ∧ e.2.status = RStatus.pending
    · have hc' : e.2.status = RStatus.pending ∧ isRequestExpired e.2 now :=
        ⟨hc.2, hc.1⟩
      simp [cleanupExpiredRequests, hc, ih, expireStep, hc']
    · have hc' : ¬ (e.2.status = RStatus.pending ∧ isRequestExpired e.2 now) :=
        fun h => hc ⟨h.2, h.1⟩
      simp [cleanupExpiredRequests, hc, ih, expireStep, hc']

/-- The ledger side of `getStats` rewrites the table exactly by
`expireStep`. -/
theorem getStatsAux_snd (led : Ledger) (now : Nat) (s : RStats) :
    (getStatsAux led now s).2 = led.map (expireStep now) := by
  induction led generalizing s with
  | nil => simp [getStatsAux]
  | cons e rest ih =>
    simp only [getStatsAux, List.map_cons]
    rw [ih]
    by_cases hc : e.2.status = RStatus.pending ∧ isRequestExpired e.2 now
    · simp [hc, expireStep]
    · simp [hc, expireStep]

/-- Reading through a ledger rewritten by `expireStep`. -/
theorem mapGet_map_expireStep (led : Ledger) (now : Nat) (k : String)
    (r : EditRequest) (h : mapGet k led = some r) :
    mapGet k (led.map (expireStep now)) =
      some (if r.status = RStatus.pending ∧ isRequestExpired r now then
              { r with status := RStatus.expired } else r) := by
  induction led with
  | nil => simp [mapGet] at h
  | cons e rest ih =>
    by_cases he : e.1 = k
    · have hr : e.2 = r := by
        have h2 := h
        simp only [mapGet, if_pos he] at h2
        exact Option.some.inj h2
      subst hr
      simp only [List.map_cons, mapGet, expireStep_fst, if_pos he]
      by_cases hc : e.2.status = RStatus.pending ∧ isRequestExpired e.2 now
      · simp [expireStep, hc]
      · simp [expireStep, hc]
    · have h' : mapGet k rest = some r := by
        have h2 := h
        simp only [mapGet, if_neg he] at h2
        exact h2
      simp only [List.map_cons, mapGet, expireStep_fst, if_neg he]
      exact ih h'

/-- `cleanupOldRequests` deletes exactly the old non-pending entries and
counts them. -/
theorem cleanupOldRequests_eq (led : Ledger) (maxAge now : Nat) :
    cleanupOldRequests led maxAge now =
      ((led.filter (fun e =>
          decide ((e.2.timestamp : Int) < (now : Int) - (maxAge : Int) ∧
                  e.2.status ≠ RStatus.pending))).length,
       led.filter (fun e =>
          ! decide ((e.2.timestamp : Int) < (now : Int) - (maxAge : Int) ∧
                    e.2.status ≠ RStatus.pending))) := by
  induction led with
  | nil => simp [cleanupOldRequests]
  | cons e rest ih =>
    by_cases hc : (e.2.timestamp : Int) < (now : Int) - (maxAge : Int) ∧
        e.2.status ≠ RStatus.pending
    · simp [cleanupOldRequests, hc, ih, List.filter_cons]
    · have hc2 : (now : Int) ≤ (e.2.timestamp : Int) + (maxAge : Int) ∨
          e.2.status = RStatus.pending := by
        rcases not_and_or.mp hc with h | h
        · left; omega
        · right; exact not_not.mp h
      simp [cleanupOldRequests, hc, ih, List.filter_cons, hc2]

theorem expireStep_snd (now : Nat) (e : String × EditRequest) :
    (expireStep now e).2 =
      if e.2.status = RStatus.pending ∧ isRequestExpired e.2 now then
        { e.2 with status := RStatus.expired }
      else e.2 := by
  unfold expireStep
  split <;> rfl

/-- The counters accumulated by the `getStats` loop are the status counts of
the rewritten ledger. -/
theorem getStatsAux_counts (now : Nat) (led : Ledger) : ∀ s : RStats,
    (getStatsAux led now s).1 =
      { total := s.total + led.length,
        pending := s.pending + countStatus (led.map (expireStep now)) RStatus.pending,
        approved := s.approved + countStatus (led.map (expireStep now)) RStatus.approved,
        denied := s.denied + countStatus (led.map (expireStep now)) RStatus.denied,
        expired := s.expired + countStatus (led.map (expireStep now)) RStatus.expired,
        cancelled := s.cancelled + countStatus (led.map (expireStep now)) RStatus.cancelled } := by
  induction led with
  | nil => intro s; simp [getStatsAux, countStatus]
  | cons e rest ih =>
    intro s
    simp only [getStatsAux, List.map_cons]
    rw [ih]
    by_cases hc : e.2.status = RStatus.pending ∧ isRequestExpired e.2 now
    · obtain ⟨hc1, hc2⟩ := hc
      simp [hc1, hc2, bumpStat, countStatus, List.filter_cons, expireStep,
        RStats.mk.injEq, List.length_cons]
      omega
    · by_cases hst : e.2.status = RStatus.pending
      · have hexp : isRequestExpired e.2 now = false := by
          cases hcase : isRequestExpired e.2 now
          · rfl
          · exact absurd ⟨hst, hcase⟩ hc
        simp [hst, hexp, bumpStat, countStatus, List.filter_cons, expireStep,
          RStats.mk.injEq, List.length_cons]
        omega
      · cases hs : e.2.status
        · exact absurd hs hst
        all_goals
          simp [hs, bumpStat, countStatus, List.filter_cons, expireStep,
            RStats.mk.injEq, List.length_cons]
        all_goals omega

end OpLemmas

/-! ### Claim theorems -/

/-- C1: if a live (non-expired) lock on `wf` is owned by `u1`, then
`requestLock(wf, u2, force=false)` for any `u2 ≠ u1` fails with error kind
`WORKFLOW_LOCKED`, carrying the holder's lock info (u1's userId, acquiredAt,
expiresAt) and leaving the table unchanged; moreover the table keeps at most
one lock entry per workflowId across every `requestLock` call. -/
theorem requestLock_mutual_exclusion
    (st : LockTable) (wf u1 u2 : String) (L : Lock) (now : Nat)
    (hget : mapGet wf st = some L)
    (hlive : isLockExpired L now = false)
    (hown : L.userId = u1)
    (hne : u2 ≠ u1) :
    requestLock st wf u2 false now =
      ({ success := false, error := some LockError.WORKFLOW_LOCKED,
         message := "Workflow is currently being edited by another user",
         lockInfo := some ⟨wf, u1, L.acquiredAt, L.expiresAt⟩ }, st) ∧
    ∀ (wfq uq : String) (fq : Bool) (nowq : Nat), KeysNodup st →
      KeysNodup (requestLock st wfq uq fq nowq).2 := by
  constructor
  · have h2 : L.userId ≠ u2 := by rw [hown]; exact Ne.symm hne
    simp [requestLock, hget, hlive, h2, hown, Ne.symm hne]
  · intro wfq uq fq nowq hnd
    exact requestLock_keysNodup st wfq uq fq nowq hnd

/-- Witness for C1 at a concrete state: alice holds a live lock on wf-1 at
time 5, and bob's non-forced request is refused with alice's lock info. -/
theorem requestLock_mutual_exclusion_witness :
    requestLock [("wf-1", lockA)] "wf-1" "bob" false 5 =
      ({ success := false, error := some LockError.WORKFLOW_LOCKED,
         message := "Workflow is currently being edited by another user",
         lockInfo := some ⟨"wf-1", "alice", 0, 300000⟩ },
       [("wf-1", lockA)]) ∧
    ∀ (wfq uq : String) (fq : Bool) (nowq : Nat), KeysNodup [("wf-1", lockA)] →
      KeysNodup (requestLock [("wf-1", lockA)] wfq uq fq nowq).2 :=
  requestLock_mutual_exclusion [("wf-1", lockA)] "wf-1" "alice" "bob" lockA 5
    (by decide) (by decide) (by decide) (by decide)

/-- C3: a lock whose `expiresAt` lies strictly before `now` is never
returned as live by `getWorkflowLock`, `getAllLocks` or `getUserLocks`: it
is absent from each result, and each of these reads purges it from the
table as a side effect. -/
theorem lock_reads_never_return_expired
    (st : LockTable) (wf : String) (L : Lock) (now : Nat)
    (hnd : KeysNodup st) (hget : mapGet wf st = some L)
    (hexp : L.expiresAt < now) :
    getWorkflowLock st wf now = (none, mapDelete wf st) ∧
    mapGet wf (mapDelete wf st) = none ∧
    (∀ l ∈ (getAllLocks st now).1, ¬ l.expiresAt < now) ∧
    mapGet wf (getAllLocks st now).2 = none ∧
    ∀ u : String, (∀ l ∈ (getUserLocks st u now).1, ¬ l.expiresAt < now) ∧
      mapGet wf (getUserLocks st u now).2 = none := by
  have hexpB : isLockExpired L now = true := by
    simp [isLockExpired]
    omega
  refine ⟨?_, mapGet_mapDelete_self wf st, ?_, ?_, ?_⟩
  · simp [getWorkflowLock, hget, hexpB]
  · rw [getAllLocks_eq]
    intro l hl
    simp only [List.mem_map] at hl
    obtain ⟨e, he, rfl⟩ := hl
    have hlive := (List.mem_filter.mp he).2
    simp only [Bool.not_eq_true', isLockExpired] at hlive
    simpa using of_decide_eq_false hlive
  · rw [getAllLocks_eq]
    rw [mapGet_filter _ wf L st hnd hget]
    simp [hexpB]
  · intro u
    constructor
    · rw [getUserLocks_eq]
      intro l hl
      simp only [List.mem_map] at hl
      obtain ⟨e, he, rfl⟩ := hl
      have hlive := (List.mem_filter.mp he).2
      have hlive2 : isLockExpired e.2 now = false := by
        cases hc : isLockExpired e.2 now
        · rfl
        · rw [hc] at hlive
          simp at hlive
      simp only [isLockExpired] at hlive2
      simpa using of_decide_eq_false hlive2
    · rw [getUserLocks_eq]
      rw [mapGet_filter _ wf L st hnd hget]
      simp [hexpB]

/-- Witness for C3 at a concrete state: alice's lock on wf-1 expired at 10,
and at time 100 none of the three reads returns it, each purging it. -/
theorem lock_reads_never_return_expired_witness :
    getWorkflowLock [("wf-1", lockStale)] "wf-1" 100 =
      (none, mapDelete "wf-1" [("wf-1", lockStale)]) ∧
    mapGet "wf-1" (mapDelete "wf-1" [("wf-1", lockStale)]) = none ∧
    (∀ l ∈ (getAllLocks [("wf-1", lockStale)] 100).1, ¬ l.expiresAt < 100) ∧
    mapGet "wf-1" (getAllLocks [("wf-1", lockStale)] 100).2 = none ∧
    ∀ u : String,
      (∀ l ∈ (getUserLocks [("wf-1", lockStale)] u 100).1, ¬ l.expiresAt < 100) ∧
      mapGet "wf-1" (getUserLocks [("wf-1", lockStale)] u 100).2 = none :=
  lock_reads_never_return_expired [("wf-1", lockStale)] "wf-1" lockStale 100
    (by decide) (by decide) (by decide)

/-- C6: responding to a request that still exists with status `pending` but
whose `expiresAt` lies strictly before `now` fails with the expiry error
and, as the one failure that mutates state, flips the stored request's
status to `expired`. -/
theorem respondToRequest_stale_expires
    (led : Ledger) (i : String) (r : EditRequest) (a : Bool)
    (m : Option String) (now : Nat)
    (hget : mapGet i led = some r) (hp : r.status = RStatus.pending)
    (hexp : r.expiresAt < now) :
    (respondToRequest led i a m now).1 = Except.error "Request has expired" ∧
    mapGet i (respondToRequest led i a m now).2 =
      some { r with status := RStatus.expired } := by
  have hexpB : isRequestExpired r now = true := by
    simp [isRequestExpired]
    omega
  refine ⟨?_, ?_⟩ <;>
    simp [respondToRequest, hget, hp, hexpB, mapGet_mapSet_self]

/-- Witness for C6: a pending request that expired at 300000, responded to
at time 360000, yields the expiry error and is stored as `expired`. -/
theorem respondToRequest_stale_expires_witness :
    (respondToRequest [("r1", reqPending)] "r1" true none 360000).1 =
      Except.error "Request has expired" ∧
    mapGet "r1" (respondToRequest [("r1", reqPending)] "r1" true none 360000).2 =
      some { reqPending with status := RStatus.expired } :=
  respondToRequest_stale_expires [("r1", reqPending)] "r1" reqPending true
    none 360000 (by decide) (by decide) (by decide)

/-- C7 counterexample: at time 100 alice's lock (expiresAt 10) is expired,
yet `releaseLock` does not fail with `NO_LOCK` — the owner's release
succeeds and deletes the entry, because `releaseLock` never consults
expiry. -/
theorem releaseLock_expired_counterexample :
    isLockExpired lockStale 100 = true ∧
    (releaseLock [("wf-1", lockStale)] "wf-1" "alice").1 =
      { success := true, error := none,
        message := "Lock released successfully", workflowId := some "wf-1" } ∧
    (releaseLock [("wf-1", lockStale)] "wf-1" "alice").2 = [] ∧
    (releaseLock [("wf-1", lockStale)] "wf-1" "bob").1.error =
      some LockError.UNAUTHORIZED := by
  refine ⟨rfl, rfl, rfl, rfl⟩

/-- C7 amended: `releaseLock` ignores expiry entirely; it fails `NO_LOCK`
exactly when no entry (expired or not) exists, fails `UNAUTHORIZED` when the
stored entry — live or expired — is owned by another userId, and otherwise
deletes the entry and succeeds. -/
theorem releaseLock_outcomes (st : LockTable) (wf u : String) :
    (mapGet wf st = none →
      releaseLock st wf u =
        ({ success := false, error := some LockError.NO_LOCK,
           message := "No lock exists for this workflow", workflowId := none },
         st)) ∧
    (∀ L : Lock, mapGet wf st = some L → L.userId ≠ u →
      releaseLock st wf u =
        ({ success := false, error := some LockError.UNAUTHORIZED,
           message := "You do not own this lock", workflowId := none }, st)) ∧
    (∀ L : Lock, mapGet wf st = some L → L.userId = u →
      releaseLock st wf u =
        ({ success := true, error := none,
           message := "Lock released successfully", workflowId := some wf },
         mapDelete wf st)) := by
  refine ⟨?_, ?_, ?_⟩
  · intro h
    simp [releaseLock, h]
  · intro L h hne
    simp [releaseLock, h, hne]
  · intro L h hun
    simp [releaseLock, h, hun]

/-- Witness for the amended C7 at concrete states: absent entry gives
`NO_LOCK`, a foreign expired entry gives `UNAUTHORIZED`, the owner's release
of an expired entry succeeds. -/
theorem releaseLock_outcomes_witness :
    (mapGet "wf-1" ([] : LockTable) = none →
      releaseLock [] "wf-1" "alice" =
        ({ success := false, error := some LockError.NO_LOCK,
           message := "No lock exists for this workflow", workflowId := none },
         [])) ∧
    (∀ L : Lock, mapGet "wf-1" ([] : LockTable) = some L → L.userId ≠ "alice" →
      releaseLock [] "wf-1" "alice" =
        ({ success := false, error := some LockError.UNAUTHORIZED,
           message := "You do not own this lock", workflowId := none }, [])) ∧
    (∀ L : Lock, mapGet "wf-1" ([] : LockTable) = some L → L.userId = "alice" →
      releaseLock [] "wf-1" "alice" =
        ({ success := true, error := none,
           message := "Lock released successfully", workflowId := some "wf-1" },
         mapDelete "wf-1" [])) :=
  releaseLock_outcomes [] "wf-1" "alice"

/-- C8 counterexample: for an existing pending request whose requester is
bob, a cancel by mallory does not raise — the thrown error is caught inside
`cancelRequest`, which returns plain `false` with the ledger unchanged,
indistinguishable from the absent-request return. -/
theorem cancelRequest_no_raise_counterexample :
    (cancelRequestTry [("r1", reqPending)] "r1" "mallory" 50).1 =
      Except.error "Only the requester can cancel the request" ∧
    cancelRequest [("r1", reqPending)] "r1" "mallory" 50 =
      (false, [("r1", reqPending)]) ∧
    cancelRequest [("r1", reqPending)] "r2" "mallory" 50 =
      (false, [("r1", reqPending)]) := by
  refine ⟨rfl, rfl, rfl⟩

/-- C8 amended: `cancelRequest` returns false for an absent request; it also
returns false — catching the internally thrown error, with no failure
visible to the caller and the ledger unchanged — when the caller is not the
original requester or the status is not `pending`; otherwise it transitions
the request to `cancelled`, stamps `respondedAt`, and returns true. -/
theorem cancelRequest_outcomes (led : Ledger) (i u : String) (now : Nat) :
    (mapGet i led = none → cancelRequest led i u now = (false, led)) ∧
    (∀ r : EditRequest, mapGet i led = some r → r.requesterId ≠ u →
      cancelRequest led i u now = (false, led)) ∧
    (∀ r : EditRequest, mapGet i led = some r → r.status ≠ RStatus.pending →
      cancelRequest led i u now = (false, led)) ∧
    (∀ r : EditRequest, mapGet i led = some r → r.requesterId = u →
      r.status = RStatus.pending →
      cancelRequest led i u now =
        (true,
         mapSet i { r with status := RStatus.cancelled, respondedAt := some now } led)) := by
  refine ⟨?_, ?_, ?_, ?_⟩
  · intro h
    simp [cancelRequest, cancelRequestTry, h]
  · intro r h hne
    simp [cancelRequest, cancelRequestTry, h, hne]
  · intro r h hst
    by_cases hq : r.requesterId = u
    · simp [cancelRequest, cancelRequestTry, h, hq, hst]
    · simp [cancelRequest, cancelRequestTry, h, hq]
  · intro r h hq hst
    simp [cancelRequest, cancelRequestTry, h, hq, hst]

/-- Witness for the amended C8: bob cancels his own pending request at time
50; the entry is stored as cancelled with `respondedAt = 50` and the call
returns true. -/
theorem cancelRequest_outcomes_witness :
    (mapGet "r1" [("r1", reqPending)] = none →
      cancelRequest [("r1", reqPending)] "r1" "bob" 50 =
        (false, [("r1", reqPending)])) ∧
    (∀ r : EditRequest, mapGet "r1" [("r1", reqPending)] = some r →
      r.requesterId ≠ "bob" →
      cancelRequest [("r1", reqPending)] "r1" "bob" 50 =
        (false, [("r1", reqPending)])) ∧
    (∀ r : EditRequest, mapGet "r1" [("r1", reqPending)] = some r →
      r.status ≠ RStatus.pending →
      cancelRequest [("r1", reqPending)] "r1" "bob" 50 =
        (false, [("r1", reqPending)])) ∧
    (∀ r : EditRequest, mapGet "r1" [("r1", reqPending)] = some r →
      r.requesterId = "bob" → r.status = RStatus.pending →
      cancelRequest [("r1", reqPending)] "r1" "bob" 50 =
        (true,
         mapSet "r1" { r with status := RStatus.cancelled, respondedAt := some 50 } [("r1", reqPending)])) :=
  cancelRequest_outcomes [("r1", reqPending)] "r1" "bob" 50

/-- C9: `cleanupOldRequests(maxAge)` deletes a request if and only if its
creation `timestamp` is before `now - maxAge` and its status is not
`pending`; a pending request is never deleted however old it is, and the
returned count is the number of deleted entries. -/
theorem cleanupOldRequests_retention (led : Ledger) (maxAge now : Nat) :
    (cleanupOldRequests led maxAge now).2 =
      led.filter (fun e =>
        ! decide ((e.2.timestamp : Int) < (now : Int) - (maxAge : Int) ∧
                  e.2.status ≠ RStatus.pending)) ∧
    (cleanupOldRequests led maxAge now).1 =
      (led.filter (fun e =>
        decide ((e.2.timestamp : Int) < (now : Int) - (maxAge : Int) ∧
                e.2.status ≠ RStatus.pending))).length ∧
    ∀ e ∈ led, e.2.status = RStatus.pending →
      e ∈ (cleanupOldRequests led maxAge now).2 := by
  have h := cleanupOldRequests_eq led maxAge now
  refine ⟨congrArg Prod.snd h, congrArg Prod.fst h, ?_⟩
  intro e he hp
  rw [congrArg Prod.snd h]
  rw [List.mem_filter]
  refine ⟨he, ?_⟩
  simp [hp]

/-- Witness for C9: at time 10^9 with a one-hour window, an ancient denied
request is pruned while an equally ancient pending request survives. -/
theorem cleanupOldRequests_retention_witness :
    ("r1", reqPending) ∈
      (cleanupOldRequests [("r1", reqPending), ("r2", reqDenied)]
        3600000 1000000000).2 ∧
    (cleanupOldRequests [("r1", reqPending), ("r2", reqDenied)]
        3600000 1000000000).1 = 1 :=
  ⟨(cleanupOldRequests_retention [("r1", reqPending), ("r2", reqDenied)]
      3600000 1000000000).2.2 ("r1", reqPending) (by decide) (by decide),
   by decide⟩

/-- C10: `getStats` is not a pure snapshot — it rewrites the stored ledger
by flipping every expired pending request to `expired` (leaving every other
entry and every other field unchanged, per `expireStep`), and its counters
are computed from the rewritten statuses. -/
theorem getStats_expires_pending_in_place (led : Ledger) (now : Nat) :
    (getStats led now).2 = led.map (expireStep now) ∧
    (getStats led now).1 =
      { total := led.length,
        pending := countStatus (led.map (expireStep now)) RStatus.pending,
        approved := countStatus (led.map (expireStep now)) RStatus.approved,
        denied := countStatus (led.map (expireStep now)) RStatus.denied,
        expired := countStatus (led.map (expireStep now)) RStatus.expired,
        cancelled := countStatus (led.map (expireStep now)) RStatus.cancelled } := by
  constructor
  · exact getStatsAux_snd led now _
  · have h := getStatsAux_counts now led ⟨0, 0, 0, 0, 0, 0⟩
    simpa [getStats] using h

/-- C2: once a stored request's status has left `pending`, no RequestManager
operation — create (with a fresh uuid), respond, cancel, the expiry sweep,
the retention sweep, or the stats read — ever changes its status again: if
the entry still exists afterwards, its status is exactly what it was. -/
theorem request_terminality
    (led : Ledger) (now : Nat) (op : ROp) (i : String) (r : EditRequest)
    (hnd : KeysNodup led) (hget : mapGet i led = some r)
    (hst : r.status ≠ RStatus.pending) (hfresh : opFresh led op) :
    ∀ r2 : EditRequest, mapGet i (applyROp led now op) = some r2 →
      r2.status = r.status := by
  intro r2 h2
  have hfin : mapGet i led = some r2 → r2.status = r.status := fun h =>
    (congrArg EditRequest.status (Option.some.inj (hget.symm.trans h))).symm
  cases op with
  | create newId wf rq tg m =>
    have hne : i ≠ newId := by
      intro hh
      rw [hh, hfresh] at hget
      cases hget
    simp only [applyROp, createRequest] at h2
    rw [mapGet_mapSet_ne i newId _ led hne] at h2
    exact hfin h2
  | respond j a m =>
    simp only [applyROp, respondToRequest] at h2
    cases hj : mapGet j led with
    | none =>
      rw [hj] at h2
      exact hfin h2
    | some req =>
      rw [hj] at h2
      by_cases hreqp : req.status = RStatus.pending
      · have hij : j ≠ i := by
          intro hh
          rw [hh, hget] at hj
          exact hst ((Option.some.inj hj) ▸ hreqp)
        by_cases hexp : isRequestExpired req now
        · simp only [hreqp, hexp, if_pos, if_neg, ne_eq, not_true_eq_false,
            if_false, not_false_eq_true, if_true] at h2
          rw [mapGet_mapSet_ne i j _ led (Ne.symm hij)] at h2
          exact hfin h2
        · simp only [hreqp, hexp, ne_eq, not_true_eq_false, if_false,
            Bool.false_eq_true] at h2
          rw [mapGet_mapSet_ne i j _ led (Ne.symm hij)] at h2
          exact hfin h2
      · simp only [ne_eq, hreqp, not_false_eq_true, if_true] at h2
        exact hfin h2
  | cancel j u =>
    simp only [applyROp, cancelRequest, cancelRequestTry] at h2
    cases hj : mapGet j led with
    | none =>
      rw [hj] at h2
      exact hfin h2
    | some req =>
      rw [hj] at h2
      by_cases hq : req.requesterId = u
      · by_cases hreqp : req.status = RStatus.pending
        · have hij : j ≠ i := by
            intro hh
            rw [hh, hget] at hj
            exact hst ((Option.some.inj hj) ▸ hreqp)
          simp only [hq, hreqp, ne_eq, not_true_eq_false, if_false,
            not_false_eq_true, if_true] at h2
          rw [mapGet_mapSet_ne i j _ led (Ne.symm hij)] at h2
          exact hfin h2
        · simp only [hq, hreqp, ne_eq, not_true_eq_false, if_false,
            not_false_eq_true, if_true] at h2
          exact hfin h2
      · simp only [hq, ne_eq, not_false_eq_true, if_true] at h2
        exact hfin h2
  | cleanupExpired =>
    simp only [applyROp] at h2
    rw [cleanupExpiredRequests_snd, mapGet_map_expireStep led now i r hget] at h2
    rw [if_neg (fun hh => hst hh.1)] at h2
    exact (Option.some.inj h2).symm ▸ rfl
  | cleanupOld maxAge =>
    simp only [applyROp] at h2
    rw [congrArg Prod.snd (cleanupOldRequests_eq led maxAge now)] at h2
    rw [mapGet_filter _ i r led hnd hget] at h2
    split at h2
    · exact (Option.some.inj h2).symm ▸ rfl
    · cases h2
  | stats =>
    simp only [applyROp, getStats] at h2
    rw [getStatsAux_snd, mapGet_map_expireStep led now i r hget] at h2
    rw [if_neg (fun hh => hst hh.1)] at h2
    exact (Option.some.inj h2).symm ▸ rfl

/-- Witness for C2: a denied request stays denied across a respond call, the
expiry sweep, the retention sweep (with a window keeping it) and a stats
read, at concrete inputs. -/
theorem request_terminality_witness :
    (∀ r2 : EditRequest,
      mapGet "r2" (applyROp [("r2", reqDenied)] 50
        (ROp.respond "r2" true none)) = some r2 →
      r2.status = reqDenied.status) ∧
    (∀ r2 : EditRequest,
      mapGet "r2" (applyROp [("r2", reqDenied)] 50 ROp.stats) = some r2 →
      r2.status = reqDenied.status) :=
  ⟨request_terminality [("r2", reqDenied)] 50 (ROp.respond "r2" true none)
      "r2" reqDenied (by decide) (by decide) (by decide) trivial,
   request_terminality [("r2", reqDenied)] 50 ROp.stats
      "r2" reqDenied (by decide) (by decide) (by decide) trivial⟩

/-- C4 evaluated at the failing input: alice (lock holder on wf-1, target of
bob's pending request) approves via the socket handler while bob has no
connected session.  The ledger transition to `approved` succeeds, yet no
lock release is attempted — alice's lock on wf-1 survives — because the
release call sits inside the requester-notification block.  The HTTP route
at the same state does release the lock, showing the intended cascade. -/
theorem socket_approve_skips_release_when_requester_disconnected :
    (mapGet "r1"
        (respondEditRequestSocket stRespond (some "alice") "r1" true none
          100).requests).map EditRequest.status = some RStatus.approved ∧
    mapGet "wf-1"
        (respondEditRequestSocket stRespond (some "alice") "r1" true none
          100).locks = some lockA ∧
    lockA.userId = "alice" ∧
    (respondRoute stRespond "r1" true "alice" none 100).1 = 200 ∧
    mapGet "wf-1" (respondRoute stRespond "r1" true "alice" none 100).2.locks =
      none := by
  refine ⟨rfl, rfl, rfl, rfl, rfl⟩

/-- C5 evaluated at the failing input: carol holds live locks on wf-2 and
wf-3 and disconnects with socket workflow wf-2.  Her session is removed and
the wf-2 lock is released, but the wf-3 lock — still owned by carol —
survives, because the disconnect handler never calls `releaseUserLocks`
(which, as the last conjunct shows, would have cleared every lock of
hers). -/
theorem disconnect_leaves_other_workflow_locks :
    (disconnectHandler stDisconnect (some "carol") (some "wf-2") 100).users =
      [] ∧
    mapGet "wf-2"
        (disconnectHandler stDisconnect (some "carol") (some "wf-2") 100).locks =
      none ∧
    mapGet "wf-3"
        (disconnectHandler stDisconnect (some "carol") (some "wf-2") 100).locks =
      some lockC3 ∧
    lockC3.userId = "carol" ∧
    (releaseUserLocks stDisconnect.locks "carol").2 = [] := by
  refine ⟨rfl, rfl, rfl, rfl, rfl⟩

end Collab
